import Mathlib

/-!
Verification of the discovery engine of `pysonos` (`pysonos/discovery.py`)
against its natural-language specification.

The Python module is shallowly embedded: each function of the source is
translated into an executable Lean definition.  External collaborators
(the OS socket layer, `ifaddr`, `config.SOCO_CLASS`) are passed in as
explicit parameters, and the interleaving points that the single
`stop_lock` of `StoppableThread` allows are made explicit in a script
type that drives the probe loop.
-/

namespace Pysonos

/-- A device handle, as produced by the external factory `config.SOCO_CLASS`
applied to a source IP string.  Identity (used by the per-cycle `seen` set,
which relies on handle equality/hash) is structural equality of the handle.
`allZones` / `visibleZones` model the `all_zones` / `visible_zones`
attributes consumed by `discover`'s callback, as lists of zone names. -/
structure Zone where
  ip : String
  is_visible : Bool
  allZones : List String
  visibleZones : List String
deriving DecidableEq, Repr

/-- The byte string `b"Sonos"` checked against every inbound datagram
(`if b"Sonos" not in data: continue`). -/
def sonosMarker : List Char := ['S', 'o', 'n', 'o', 's']

/-- The Python `needle in haystack` containment test on byte strings:
`containsSeq m l` is true iff `m` occurs as a contiguous subsequence of `l`
(case-sensitive, exact bytes). -/
def containsSeq (needle : List Char) : List Char → Bool
  | [] => needle.isEmpty
  | c :: rest => needle.isPrefixOf (c :: rest) || containsSeq needle rest

/-- `b"Sonos" in data`, the validation applied to every inbound datagram. -/
def hasMarker (data : List Char) : Bool := containsSeq sonosMarker data

/-! Part: Socket pool setup (`_discover_thread`, lines 79-111) -/

/-- One address reported by `ifaddr`: the `ip.ip` string together with the
`ip.is_IPv4` flag. -/
structure IfaceIP where
  ip : String
  is_IPv4 : Bool
deriving DecidableEq, Repr

/-- The address candidates of the auto-discovery branch: the list
comprehension `[ip.ip for adapter in ifaddr.get_adapters() for ip in
adapter.ips if ip.is_IPv4 if ip.ip != "127.0.0.1"]`.  An adapter is its
list of `ips`. -/
def candidateAddresses (adapters : List (List IfaceIP)) : List String :=
  (adapters.flatMap id).filterMap
    (fun a => if a.is_IPv4 && a.ip != "127.0.0.1" then some a.ip else none)

/-- Insertion into the `_sockets` dict, keyed by address: a duplicate key
keeps a single entry. The pool is represented by its key list in insertion
order. -/
def dictInsert (pool : List String) (a : String) : List String :=
  if a ∈ pool then pool else pool ++ [a]

/-- The auto-discovery socket pool (lines 102-111): for each candidate
address, `create_socket(address)` is attempted; a `socket.error` there
(`createFails a = true`) is logged and the address skipped, not fatal. -/
def buildPoolAuto (createFails : String → Bool) (addresses : List String) :
    List String :=
  addresses.foldl (fun pool a => if createFails a then pool else dictInsert pool a) []

/-- The Python exceptions the setup phase can raise. -/
inductive PyErr where
  | valueError (msg : String)
  | socketError (msg : String)
deriving DecidableEq, Repr

/-- The setup phase of `_discover_thread` (lines 79-111).  `inetAtonOk`
models `socket.inet_aton` success, `createFails` models a `socket.error`
inside `create_socket`.  Returns the raised exception or the pool key list,
paired with the list of addresses for which a socket was actually created.

With an explicit `interface_addr`: `inet_aton` failure raises `ValueError`
("... is not a valid IP address string") before `create_socket` is ever
called; a `socket.error` from `create_socket(interface_addr)` is not
caught and propagates as-is. -/
def setupSockets (inetAtonOk : String → Bool) (createFails : String → Bool)
    (adapters : List (List IfaceIP)) (interface_addr : Option String) :
    Except PyErr (List String) × List String :=
  match interface_addr with
  | some ia =>
      if inetAtonOk ia = false then
        (.error (.valueError (ia ++ " is not a valid IP address string")), [])
      else if createFails ia then
        (.error (.socketError "create_socket"), [])
      else
        (.ok [ia], [ia])
  | none =>
      let addrs := candidateAddresses adapters
      (.ok (buildPoolAuto createFails addrs), addrs.filter (fun a => !createFails a))

/-- The handle returned by `discover_thread`. -/
structure ThreadHandle where
  started : Bool
deriving DecidableEq, Repr

/-- The operation `discover_thread` (lines 179-189): constructs a
`StoppableThread` whose target is `_discover_thread` and starts it.  The
body performs no validation of `interface_addr` itself — validation runs
later, inside the target, on the spawned thread — so the caller receives
the thread handle for every argument and no exception. -/
def discover_thread (interface_addr : Option String) : Except PyErr ThreadHandle :=
  match interface_addr with
  | _ => .ok ⟨true⟩

/-! Part: Send phase (`_discover_thread`, lines 113-125) -/

def MCAST_GRP : String := "239.255.255.250"
def BCAST_ADDR : String := "255.255.255.255"
def MCAST_PORT : Nat := 1900

/-- Observable events of one probe-loop run. `stopRet` marks the instant an
external `stop()` call has set the stop event and returned (it holds
`stop_lock` while doing so). `factoryCall ip` marks an invocation of
`config.SOCO_CLASS(ip)`; `callback z` marks a callback invocation
beginning. -/
inductive Ev where
  | sent (ifaceAddr dstHost : String) (dstPort : Nat)
  | factoryCall (ip : String)
  | callback (z : Zone)
  | stopRet
deriving DecidableEq, Repr

/-- The two `sendto` calls for one pooled socket (lines 117-122): the probe
message goes to the multicast group and then to the broadcast address, both
on port 1900, inside one `try`; `sendFail addr k` models an `OSError` on
attempt `k` (0 = multicast, 1 = broadcast), which abandons the remaining
send(s) of this socket only. -/
def socketSends (sendFail : String → Nat → Bool) (addr : String) : List Ev :=
  if sendFail addr 0 then []
  else
    Ev.sent addr MCAST_GRP MCAST_PORT ::
      (if sendFail addr 1 then [] else [Ev.sent addr BCAST_ADDR MCAST_PORT])

/-- One send phase over the whole pool (`for _addr, _sock in
_sockets.items()`): each socket's sends depend only on that socket's own
failures. -/
def sendPhase (sendFail : String → Nat → Bool) (pool : List String) : List Ev :=
  pool.flatMap (socketSends sendFail)

/-! Part: The probe loop (`_discover_thread`, lines 113-176) -/

/-- The loop-local mutable state: the per-cycle `seen` set (reset at every
send round) and the `StoppableThread` stop event. -/
structure LoopState where
  seen : List Zone
  stopped : Bool
deriving DecidableEq, Repr

/-- One datagram delivered by `recvfrom` to the response-handling block:
source IP, raw payload, and whether an external `stop()` call completes
(acquires `stop_lock`, sets the event, returns) just before this response
is processed — the lock admits no finer interleaving with the
callback-dispatch section. -/
structure Response where
  ip : String
  payload : List Char
  stopDuring : Bool
deriving DecidableEq, Repr

/-- Outcome of the `select.select` call of one iteration: a (possibly
empty) batch of readable responses, or an exception.  `select` sits
outside the per-response `try/except`, so an exception here propagates
out of the loop. -/
inductive SelectOutcome where
  | ready (batch : List Response)
  | raise
deriving Repr

/-- One iteration of the `while not stopped()` loop: whether an external
`stop()` completes before the loop-top check, whether the resend deadline
has passed (`resend < time.monotonic()`), the per-socket send failures of
this round, and the `select` outcome. -/
structure Iteration where
  stopBefore : Bool
  doSend : Bool
  sendFail : String → Nat → Bool
  sel : SelectOutcome

/-- Handling of one response (lines 151-173).  The whole block is wrapped
in `except Exception`, so it never propagates.  Order, as in the source:
marker check, factory construction, `seen` membership check, `seen.add`,
visibility check, then — holding `stop_lock` — a final `stopped()` check
guarding the callback. -/
def procResponse (factory : String → Zone) (include_invisible : Bool)
    (s : LoopState) (r : Response) : LoopState × List Ev :=
  let p : LoopState × List Ev :=
    if r.stopDuring then ({ s with stopped := true }, [Ev.stopRet]) else (s, [])
  let s₁ := p.1
  let evs := p.2
  if hasMarker r.payload = false then (s₁, evs)
  else
    let z := factory r.ip
    let evs := evs ++ [Ev.factoryCall r.ip]
    if z ∈ s₁.seen then (s₁, evs)
    else
      let s₂ := { s₁ with seen := z :: s₁.seen }
      if include_invisible || z.is_visible then
        if s₂.stopped then (s₂, evs) else (s₂, evs ++ [Ev.callback z])
      else (s₂, evs)

/-- The `for _sock in response:` loop over one readable batch. -/
def procBatch (factory : String → Zone) (include_invisible : Bool)
    (s : LoopState) : List Response → LoopState × List Ev
  | [] => (s, [])
  | r :: rs =>
      let p := procResponse factory include_invisible s r
      let q := procBatch factory include_invisible p.1 rs
      (q.1, p.2 ++ q.2)

/-- Result of one probe-loop run: the event trace, whether the `while` loop
terminated normally (stop observed at the loop top), whether an uncaught
exception escaped the loop, whether the closing `for _sock in
_sockets.values(): _sock.close()` at lines 175-176 executed, and the final
loop state. -/
structure ProbeResult where
  trace : List Ev
  exited : Bool
  crashed : Bool
  socketsClosed : Bool
  final : LoopState
deriving Repr

/-- The probe loop driven by a script of iterations.  The closing loop at
lines 175-176 sits after the `while`, not in a `finally`: it runs exactly
when the `while` condition fails (normal exit); an exception from `select`
propagates past it.  A script that runs out models a loop still running. -/
def runProbe (factory : String → Zone) (include_invisible : Bool)
    (pool : List String) (s : LoopState) : List Iteration → ProbeResult
  | [] => ⟨[], false, false, false, s⟩
  | it :: rest =>
      let p : LoopState × List Ev :=
        if it.stopBefore then ({ s with stopped := true }, [Ev.stopRet]) else (s, [])
      let s₁ := p.1
      let evs₀ := p.2
      if s₁.stopped then
        ⟨evs₀, true, false, true, s₁⟩
      else
        let q : LoopState × List Ev :=
          if it.doSend then ({ s₁ with seen := [] }, sendPhase it.sendFail pool)
          else (s₁, [])
        let s₂ := q.1
        let evs₁ := q.2
        match it.sel with
        | .raise => ⟨evs₀ ++ evs₁, false, true, false, s₂⟩
        | .ready batch =>
            let b := procBatch factory include_invisible s₂ batch
            let r := runProbe factory include_invisible pool b.1 rest
            ⟨evs₀ ++ evs₁ ++ b.2 ++ r.trace, r.exited, r.crashed, r.socketsClosed, r.final⟩

/-! Part: Trace predicates -/

/-- Is this event a callback invocation? -/
def isCb : Ev → Bool
  | .callback _ => true
  | _ => false

/-- No callback invocation occurs in the list. -/
def noCb (l : List Ev) : Bool := l.all (fun e => !isCb e)

/-- After every `stopRet` event of the trace, no callback invocation
occurs. -/
def cleanTrace : List Ev → Bool
  | [] => true
  | e :: rest => (if e = Ev.stopRet then noCb rest else true) && cleanTrace rest

/-- Number of occurrences of an event in a trace. -/
def countEv (e : Ev) (l : List Ev) : Nat := (l.filter (fun x => x = e)).length

/-- Is this event a datagram-send event? -/
def isSent : Ev → Bool
  | .sent _ _ _ => true
  | _ => false

/-! Part: `discover` accumulation and return value (lines 217-245) -/

/-- The expansion applied by `discover`'s callback to each reported zone:
`zone.all_zones` when `include_invisible` else `zone.visible_zones`. -/
def expandZone (include_invisible : Bool) (z : Zone) : List String :=
  if include_invisible then z.allZones else z.visibleZones

/-- The set `found_zones`, accumulated over the sequence of callback
invocations: starts empty, each callback does `found_zones.update(...)`. -/
def discoverAccum (include_invisible : Bool) (zones : List Zone) : Finset String :=
  zones.foldl (fun acc z => acc ∪ (expandZone include_invisible z).toFinset) ∅

/-- Line 245, `return found_zones or None`: the accumulated set if it is
non-empty (truthy), else the sentinel `None`. -/
def discoverReturn (include_invisible : Bool) (zones : List Zone) :
    Option (Finset String) :=
  let s := discoverAccum include_invisible zones
  if s = ∅ then none else some s

/-! Part: `discover` orchestration timing (lines 217-243)

Time is rational seconds from `time.monotonic`.  The worker thread stays
alive until stop is requested (the crash-free runs the claim is about),
so `thread.join(timeout=d)` advances time by `max d 0`; `respTime` is the
instant the first qualifying response reaches `discover`'s callback, which
records `first_response = time.monotonic()` at that instant. -/

/-- The caller-side view of the discovery session. -/
structure DiscState where
  now : ℚ
  firstResponse : Option ℚ
  stopAt : Option ℚ
deriving DecidableEq, Repr

/-- One `thread.join` call with timeout `d`: blocks for `max d 0` seconds
(CPython clamps a negative timeout to 0); if the first response instant
falls inside the blocked interval, the callback records it. -/
def joinStep (respTime : Option ℚ) (s : DiscState) (d : ℚ) : DiscState :=
  let d' := max d 0
  let fr :=
    match s.firstResponse with
    | some f => some f
    | none =>
        match respTime with
        | some tr => if s.now < tr ∧ tr ≤ s.now + d' then some tr else none
        | none => none
  { s with now := s.now + d', firstResponse := fr }

/-- A `thread.stop()` call: records the instant stop was requested. -/
def requestStop (s : DiscState) : DiscState :=
  { s with stopAt := some s.now }

/-- The `while thread.is_alive() and not thread.stopped():` orchestration
loop of `discover` (lines 236-243), fuel-indexed.  While no response has
been observed it joins with timeout 1 and requests stop once
`time.monotonic() > start + timeout`; once `first_response` is set it
joins with timeout `first_response + 1 - time.monotonic()` and then
requests stop. -/
def discoverLoop (timeout start : ℚ) (respTime : Option ℚ) :
    Nat → DiscState → DiscState
  | 0, s => s
  | n + 1, s =>
      if s.stopAt = none then
        match s.firstResponse with
        | none =>
            let s₁ := joinStep respTime s 1
            let s₂ := if start + timeout < s₁.now then requestStop s₁ else s₁
            discoverLoop timeout start respTime n s₂
        | some fr =>
            let s₁ := joinStep respTime s (fr + 1 - s.now)
            discoverLoop timeout start respTime n (requestStop s₁)
      else s

/-! Part: `by_name` (lines 277-292) -/

/-- A device as inspected by `by_name`: only `player_name` is read. -/
structure Device where
  player_name : String
deriving DecidableEq, Repr

/-- The lookup `by_name(name)`: iterates over `devices or []` — the guard
turns the `None` sentinel (and the falsy empty set) into an empty
iteration — and returns the first device whose `player_name` equals
`name`, else `None`.  Here `devices` is the value returned by the
`discover()` call it makes. -/
def by_name (name : String) (devices : Option (List Device)) : Option Device :=
  (match devices with
   | none => []
   | some ds => if ds.isEmpty then [] else ds).find?
    (fun d => d.player_name == name)

/-! Part: Lemmas about the marker check -/

theorem containsSeq_of_isPrefixOf (m l : List Char) (h : m.isPrefixOf l = true) :
    containsSeq m l = true := by
  cases l with
  | nil =>
      cases m with
      | nil => rfl
      | cons c cs => simp [List.isPrefixOf] at h
  | cons c cs => simp [containsSeq, h]

theorem containsSeq_append_right (m a l : List Char) (h : containsSeq m l = true) :
    containsSeq m (a ++ l) = true := by
  induction a with
  | nil => exact h
  | cons c cs ih => simp [containsSeq, List.cons_append, ih]

/-- A payload consisting of the marker surrounded by arbitrary bytes passes
the `b"Sonos" in data` check. -/
theorem hasMarker_surround (a b : List Char) :
    hasMarker (a ++ sonosMarker ++ b) = true := by
  unfold hasMarker
  rw [List.append_assoc]
  apply containsSeq_append_right
  apply containsSeq_of_isPrefixOf
  rw [ List.isPrefixOf_iff_prefix]
  exact List.prefix_append _ _

/-! Part: Claim theorems -/

/-- Claim C10: when `discover()` returns the nothing-found sentinel `None`,
`by_name(name)` returns `None` for every name without raising, because it
iterates over the sentinel-guarded `devices or []`. -/
theorem c10_by_name_none_sentinel (name : String) :
    by_name name none = none := rfl

/-- Claim C3: `discover` returns the accumulated device set when at least
one device was accumulated; with zero responses it returns the sentinel
`None`, which is distinct from an empty set (an empty set is never
returned), and it does not raise. -/
theorem c3_discover_return (include_invisible : Bool) (zones : List Zone)
    (h : discoverAccum include_invisible zones ≠ ∅) :
    discoverReturn include_invisible zones =
      some (discoverAccum include_invisible zones)
    ∧ discoverReturn include_invisible [] = none
    ∧ ∀ zs : List Zone, discoverReturn include_invisible zs ≠ some ∅ := by
  refine ⟨by simp [discoverReturn, h], by simp [discoverReturn, discoverAccum], ?_⟩
  intro zs hcontra
  unfold discoverReturn at hcontra
  by_cases hz : discoverAccum include_invisible zs = ∅
  · simp [hz] at hcontra
  · rw [if_neg hz] at hcontra
    exact hz (Option.some_injective _ hcontra)

/-- Witness for C3 at a concrete zone list. -/
theorem c3_discover_return_witness :
    discoverAccum true [⟨"192.168.1.2", true, ["A"], ["A"]⟩] ≠ ∅ ∧
    discoverReturn true [⟨"192.168.1.2", true, ["A"], ["A"]⟩] =
      some (discoverAccum true [⟨"192.168.1.2", true, ["A"], ["A"]⟩]) := by
  have h : discoverAccum true [⟨"192.168.1.2", true, ["A"], ["A"]⟩] ≠ ∅ := by decide
  exact ⟨h, (c3_discover_return true _ h).1⟩

/-- Claim C1 counterexample: for the spec's own scenario
`interface_addr = "not-an-ip"`, the invalid-argument failure is NOT
surfaced to the caller of the discovery start operation: `discover_thread`
returns the started thread handle normally, while the `ValueError` is
raised later, inside the spawned worker's setup phase (with zero sockets
created there). -/
theorem c1_counterexample :
    discover_thread (some "not-an-ip") = .ok ⟨true⟩ ∧
    setupSockets (fun _ => false) (fun _ => false) [] (some "not-an-ip") =
      (.error (.valueError "not-an-ip is not a valid IP address string"), []) :=
  ⟨rfl, rfl⟩

/-- Claim C1 (amended): if the explicit `interface_addr` is not a valid
IPv4 address string, a `ValueError` is raised before any socket is
created, and if the address is valid but the socket cannot be created the
raw socket error propagates (not an invalid-argument failure); both
failures happen inside the spawned worker thread, while the caller of
`discover_thread` receives the started thread handle and no exception. -/
theorem c1_worker_side_failure (inetAtonOk createFails : String → Bool)
    (adapters : List (List IfaceIP)) (ia ib : String)
    (hbad : inetAtonOk ia = false)
    (hgood : inetAtonOk ib = true) (hfail : createFails ib = true) :
    setupSockets inetAtonOk createFails adapters (some ia) =
      (.error (.valueError (ia ++ " is not a valid IP address string")), [])
    ∧ setupSockets inetAtonOk createFails adapters (some ib) =
      (.error (.socketError "create_socket"), [])
    ∧ discover_thread (some ia) = .ok ⟨true⟩
    ∧ discover_thread (some ib) = .ok ⟨true⟩ := by
  refine ⟨?_, ?_, rfl, rfl⟩ <;> simp [setupSockets, hbad, hgood, hfail]

/-- Witness for the amended C1 at concrete inputs. -/
theorem c1_worker_side_failure_witness :
    (fun s => s == "10.0.0.1") "not-an-ip" = false ∧
    (fun s => s == "10.0.0.1") "10.0.0.1" = true ∧
    setupSockets (fun s => s == "10.0.0.1") (fun _ => true) []
      (some "not-an-ip") =
      (.error (.valueError "not-an-ip is not a valid IP address string"), []) := by
  refine ⟨by decide, by decide, ?_⟩
  exact (c1_worker_side_failure (fun s => s == "10.0.0.1") (fun _ => true) []
    "not-an-ip" "10.0.0.1" (by decide) (by decide) rfl).1

/-- Claim C7 counterexample: a run whose `select` call raises terminates
the loop by an exception, and the closing of the pooled sockets is
skipped — the close loop follows the `while` and is not in a `finally`. -/
theorem c7_counterexample :
    (runProbe (fun ip => ⟨ip, true, [], []⟩) true ["192.168.1.2"]
        ⟨[], false⟩ [⟨false, false, fun _ _ => false, .raise⟩]).crashed = true
    ∧ (runProbe (fun ip => ⟨ip, true, [], []⟩) true ["192.168.1.2"]
        ⟨[], false⟩ [⟨false, false, fun _ _ => false, .raise⟩]).socketsClosed
        = false :=
  ⟨rfl, rfl⟩

/-- Claim C7 (amended): the pooled sockets are closed exactly when the
probe loop terminates normally (stop observed at the loop top); on the
crash exit path (`select` raising) the close code does not run. -/
theorem c7_sockets_closed_iff_normal_exit (factory : String → Zone)
    (inc : Bool) (pool : List String) (s : LoopState)
    (script : List Iteration) :
    (runProbe factory inc pool s script).socketsClosed =
      (runProbe factory inc pool s script).exited := by
  induction script generalizing s with
  | nil => rfl
  | cons it rest ih =>
      cases hsb : it.stopBefore with
      | true => simp [runProbe, hsb]
      | false =>
          cases hst : s.stopped with
          | true => simp [runProbe, hsb, hst]
          | false =>
              cases hsel : it.sel with
              | raise => simp [runProbe, hsb, hst, hsel]
              | ready batch => simp [runProbe, hsb, hst, hsel, ih]

/-- Claim C5: an inbound datagram is accepted (a device handle constructed
from its source IP) precisely on the marker check: a payload that is the
literal `"Sonos"` surrounded by arbitrary bytes leads to a factory call,
one without the marker is silently discarded with the loop state
unchanged, and a received batch never crashes the loop (the per-response
block is wrapped in a catch-all). -/
theorem c5_marker_validation (factory : String → Zone) (inc : Bool)
    (s : LoopState) (ip : String) (a b p : List Char)
    (hn : hasMarker p = false) :
    Ev.factoryCall ip ∈
      (procResponse factory inc s ⟨ip, a ++ sonosMarker ++ b, false⟩).2
    ∧ procResponse factory inc s ⟨ip, p, false⟩ = (s, [])
    ∧ ∀ pool batch, (runProbe factory inc pool s
        [⟨false, false, fun _ _ => false, .ready batch⟩]).crashed = false := by
  refine ⟨?_, by simp [procResponse, hn], ?_⟩
  · unfold procResponse
    simp only [hasMarker_surround, Bool.true_eq_false, if_false]
    split_ifs <;> simp
  · intro pool batch
    cases hst : s.stopped <;> simp [runProbe, hst]

/-! Part: Lemmas for the stop/callback ordering -/

theorem noCb_append (a b : List Ev) : noCb (a ++ b) = (noCb a && noCb b) := by
  simp [noCb, List.all_append]

theorem cleanTrace_append (a b : List Ev)
    (ha : cleanTrace a = true) (hb : cleanTrace b = true)
    (hab : Ev.stopRet ∈ a → noCb b = true) :
    cleanTrace (a ++ b) = true := by
  induction a with
  | nil => exact hb
  | cons e rest ih =>
      simp only [cleanTrace, Bool.and_eq_true] at ha
      have tail : cleanTrace (rest ++ b) = true :=
        ih ha.2 (fun hm => hab (List.mem_cons_of_mem _ hm))
      by_cases he : e = Ev.stopRet
      · subst he
        have hnb : noCb b = true := hab (List.mem_cons_self _ _)
        have hnr : noCb rest = true := by simpa using ha.1
        simp [cleanTrace, noCb_append, hnb, hnr, tail]
      · simp [cleanTrace, he, tail]

theorem cleanTrace_of_not_stopRet (l : List Ev) (h : Ev.stopRet ∉ l) :
    cleanTrace l = true := by
  induction l with
  | nil => rfl
  | cons e rest ih =>
      have he : ¬(e = Ev.stopRet) := fun hh => h (by rw [hh]; exact List.mem_cons_self _ _)
      simp [cleanTrace, he, ih (fun hm => h (List.mem_cons_of_mem _ hm))]

theorem stopRet_not_mem_socketSends (f : String → Nat → Bool) (a : String) :
    Ev.stopRet ∉ socketSends f a := by
  unfold socketSends; split_ifs <;> simp

theorem stopRet_not_mem_sendPhase (f : String → Nat → Bool) (pool : List String) :
    Ev.stopRet ∉ sendPhase f pool := by
  intro h
  rw [sendPhase, List.mem_flatMap] at h
  obtain ⟨a, _, hm⟩ := h
  exact stopRet_not_mem_socketSends f a hm

theorem noCb_socketSends (f : String → Nat → Bool) (a : String) :
    noCb (socketSends f a) = true := by
  unfold socketSends noCb; split_ifs <;> simp [isCb]

theorem noCb_sendPhase (f : String → Nat → Bool) (pool : List String) :
    noCb (sendPhase f pool) = true := by
  rw [noCb, List.all_eq_true]
  intro e he
  rw [sendPhase, List.mem_flatMap] at he
  obtain ⟨a, _, hm⟩ := he
  have := noCb_socketSends f a
  rw [noCb, List.all_eq_true] at this
  exact this e hm

/-- The per-response handler: once the stop event is set it stays set, a
stopped state yields no callback, an emitted `stopRet` implies the stop
event is set afterwards, and its own event list is clean. -/
theorem procResponse_inv (factory : String → Zone) (inc : Bool)
    (s : LoopState) (r : Response) :
    (s.stopped = true → (procResponse factory inc s r).1.stopped = true
        ∧ noCb (procResponse factory inc s r).2 = true)
    ∧ (Ev.stopRet ∈ (procResponse factory inc s r).2 →
        (procResponse factory inc s r).1.stopped = true)
    ∧ cleanTrace (procResponse factory inc s r).2 = true := by
  unfold procResponse
  cases hd : r.stopDuring <;>
    simp only [hd, Bool.false_eq_true, if_false, if_true] <;>
    split_ifs <;>
    simp_all [noCb, isCb, cleanTrace]

/-- Batch handling preserves the same invariants across one readable
batch. -/
theorem procBatch_inv (factory : String → Zone) (inc : Bool) :
    ∀ (batch : List Response) (s : LoopState),
    (s.stopped = true → (procBatch factory inc s batch).1.stopped = true
        ∧ noCb (procBatch factory inc s batch).2 = true)
    ∧ (Ev.stopRet ∈ (procBatch factory inc s batch).2 →
        (procBatch factory inc s batch).1.stopped = true)
    ∧ cleanTrace (procBatch factory inc s batch).2 = true := by
  intro batch
  induction batch with
  | nil => intro s; exact ⟨fun h => ⟨h, rfl⟩, by simp [procBatch], rfl⟩
  | cons r rs ih =>
      intro s
      obtain ⟨pr1, pr2, pr3⟩ := procResponse_inv factory inc s r
      obtain ⟨ib1, ib2, ib3⟩ := ih (procResponse factory inc s r).1
      refine ⟨?_, ?_, ?_⟩
      · intro h
        obtain ⟨hps, hpn⟩ := pr1 h
        obtain ⟨hbs, hbn⟩ := ib1 hps
        exact ⟨hbs, by simp [procBatch, noCb_append, hpn, hbn]⟩
      · intro hmem
        simp only [procBatch, List.mem_append] at hmem
        show (procBatch factory inc (procResponse factory inc s r).1 rs).1.stopped = true
        rcases hmem with hm | hm
        · exact (ib1 (pr2 hm)).1
        · exact ib2 hm
      · show cleanTrace ((procResponse factory inc s r).2 ++
            (procBatch factory inc (procResponse factory inc s r).1 rs).2) = true
        exact cleanTrace_append _ _ pr3 ib3 (fun hm => (ib1 (pr2 hm)).2)

/-- A probe loop started in a stopped state emits no callback. -/
theorem runProbe_stopped_noCb (factory : String → Zone) (inc : Bool)
    (pool : List String) (script : List Iteration) (s : LoopState)
    (h : s.stopped = true) :
    noCb (runProbe factory inc pool s script).trace = true := by
  cases script with
  | nil => rfl
  | cons it rest =>
      cases hsb : it.stopBefore <;> simp [runProbe, hsb, h, noCb, isCb]

theorem cleanTrace_sendBatchRest (a b c : List Ev)
    (ha : Ev.stopRet ∉ a)
    (hb : cleanTrace b = true)
    (hc : cleanTrace c = true)
    (hbc : Ev.stopRet ∈ b → noCb c = true) :
    cleanTrace (a ++ b ++ c) = true := by
  rw [List.append_assoc]
  refine cleanTrace_append _ _ (cleanTrace_of_not_stopRet a ha)
    (cleanTrace_append b c hb hc hbc) (fun hm => absurd hm ha)

/-- Claim C2: in every probe-loop execution, no callback invocation begins
after a `stop()` call has returned: the stop-flag check and the callback
dispatch share the `stop_lock` that `stop()` acquires, so every trace is
clean — after any `stopRet` event no `callback` event occurs (an
invocation already past the check may still appear before the `stopRet`).
The script's `stopBefore`/`stopDuring` points are exactly the
interleavings the shared lock admits. -/
theorem c2_no_callback_after_stop (factory : String → Zone) (inc : Bool)
    (pool : List String) (s : LoopState) (script : List Iteration) :
    cleanTrace (runProbe factory inc pool s script).trace = true := by
  induction script generalizing s with
  | nil => rfl
  | cons it rest ih =>
      cases hsb : it.stopBefore with
      | true => simp [runProbe, hsb, cleanTrace, noCb]
      | false =>
          cases hst : s.stopped with
          | true => simp [runProbe, hsb, hst, cleanTrace]
          | false =>
              cases hsel : it.sel with
              | raise =>
                  cases hds : it.doSend <;>
                    simp only [runProbe, hsb, hst, hsel, hds, Bool.false_eq_true,
                      if_false, if_true, List.nil_append] <;>
                  · first
                    | rfl
                    | exact cleanTrace_of_not_stopRet _
                        (stopRet_not_mem_sendPhase _ _)
              | ready batch =>
                  cases hds : it.doSend <;>
                    simp only [runProbe, hsb, hst, hsel, hds, Bool.false_eq_true,
                      if_false, if_true, List.nil_append]
                  · exact cleanTrace_sendBatchRest [] _ _ (by simp)
                      (procBatch_inv factory inc batch _).2.2
                      (ih _)
                      (fun hm => runProbe_stopped_noCb factory inc pool rest _
                        ((procBatch_inv factory inc batch _).2.1 hm))
                  · exact cleanTrace_sendBatchRest _ _ _
                      (stopRet_not_mem_sendPhase _ _)
                      (procBatch_inv factory inc batch _).2.2
                      (ih _)
                      (fun hm => runProbe_stopped_noCb factory inc pool rest _
                        ((procBatch_inv factory inc batch _).2.1 hm))

/-! Part: Counting lemmas for the dedup claims -/

theorem countEv_append (e : Ev) (a b : List Ev) :
    countEv e (a ++ b) = countEv e a + countEv e b := by
  unfold countEv
  rw [List.filter_append, List.length_append]

theorem all_isSent_socketSends (f : String → Nat → Bool) (a : String) :
    (socketSends f a).all isSent = true := by
  unfold socketSends; split_ifs <;> simp [isSent]

theorem all_isSent_sendPhase (f : String → Nat → Bool) (pool : List String) :
    (sendPhase f pool).all isSent = true := by
  rw [List.all_eq_true]
  intro e he
  rw [sendPhase, List.mem_flatMap] at he
  obtain ⟨a, _, hm⟩ := he
  exact List.all_eq_true.mp (all_isSent_socketSends f a) e hm

theorem countEv_sendPhase_eq_zero (e : Ev) (he : isSent e = false)
    (f : String → Nat → Bool) (pool : List String) :
    countEv e (sendPhase f pool) = 0 := by
  unfold countEv
  rw [List.length_eq_zero, List.filter_eq_nil_iff]
  intro x hx hdec
  have hxe : x = e := of_decide_eq_true hdec
  have := List.all_eq_true.mp (all_isSent_sendPhase f pool) x hx
  rw [hxe, he] at this
  exact Bool.false_ne_true this

theorem countEv_nil (e : Ev) : countEv e [] = 0 := rfl

theorem countEv_cons (e x : Ev) (l : List Ev) :
    countEv e (x :: l) = (if x = e then 1 else 0) + countEv e l := by
  unfold countEv
  by_cases h : x = e
  · simp [List.filter_cons, h, Nat.add_comm]
  · simp [List.filter_cons, h]

/-- Claim C4: within one resend cycle two qualifying responses from the
same source IP yield exactly one callback invocation; the seen set is
reset when a new round of search datagrams is sent, so across two resend
cycles the same source IP yields one callback per cycle (two in total). -/
theorem c4_dedup_per_cycle (factory : String → Zone) (inc : Bool)
    (pool : List String) (s : LoopState) (ip : String) (p₁ p₂ : List Char)
    (h₁ : hasMarker p₁ = true) (h₂ : hasMarker p₂ = true)
    (hs : s.stopped = false)
    (hv : (inc || (factory ip).is_visible) = true) :
    countEv (Ev.callback (factory ip))
      (runProbe factory inc pool s
        [⟨false, true, fun _ _ => false,
          .ready [⟨ip, p₁, false⟩, ⟨ip, p₂, false⟩]⟩]).trace = 1
    ∧ countEv (Ev.callback (factory ip))
      (runProbe factory inc pool s
        [⟨false, true, fun _ _ => false, .ready [⟨ip, p₁, false⟩]⟩,
         ⟨false, true, fun _ _ => false, .ready [⟨ip, p₂, false⟩]⟩]).trace = 2 := by
  have hz : countEv (Ev.callback (factory ip))
      (sendPhase (fun _ _ => false) pool) = 0 :=
    countEv_sendPhase_eq_zero (Ev.callback (factory ip)) rfl _ _
  constructor <;>
    simp [runProbe, procBatch, procResponse, hs, h₁, h₂, hv, countEv_append,
      countEv_cons, countEv_nil, hz]

/-- Witness for C4 at concrete inputs. -/
theorem c4_dedup_per_cycle_witness :
    hasMarker "xSonosx".toList = true ∧
    countEv (Ev.callback ((fun ip => Zone.mk ip true [] []) "1.1.1.1"))
      (runProbe (fun ip => Zone.mk ip true [] []) false ["A"] ⟨[], false⟩
        [⟨false, true, fun _ _ => false,
          .ready [⟨"1.1.1.1", "xSonosx".toList, false⟩,
                  ⟨"1.1.1.1", "xSonosx".toList, false⟩]⟩]).trace = 1 := by
  have hm : hasMarker "xSonosx".toList = true := by decide
  exact ⟨hm, (c4_dedup_per_cycle (fun ip => Zone.mk ip true [] []) false ["A"]
    ⟨[], false⟩ "1.1.1.1" "xSonosx".toList "xSonosx".toList hm hm rfl (by simp)).1⟩

/-- Claim C9: the factory `config.SOCO_CLASS` is invoked on the sender's
source IP before the seen-set membership check, so two marker-bearing
responses from one source IP within one resend cycle cause two factory
invocations while only one callback fires: dedup suppresses the callback,
not the construction. -/
theorem c9_factory_before_dedup (factory : String → Zone) (inc : Bool)
    (pool : List String) (s : LoopState) (ip : String) (p₁ p₂ : List Char)
    (h₁ : hasMarker p₁ = true) (h₂ : hasMarker p₂ = true)
    (hs : s.stopped = false)
    (hv : (inc || (factory ip).is_visible) = true) :
    countEv (Ev.factoryCall ip)
      (runProbe factory inc pool s
        [⟨false, true, fun _ _ => false,
          .ready [⟨ip, p₁, false⟩, ⟨ip, p₂, false⟩]⟩]).trace = 2
    ∧ countEv (Ev.callback (factory ip))
      (runProbe factory inc pool s
        [⟨false, true, fun _ _ => false,
          .ready [⟨ip, p₁, false⟩, ⟨ip, p₂, false⟩]⟩]).trace = 1 := by
  have hz : countEv (Ev.callback (factory ip))
      (sendPhase (fun _ _ => false) pool) = 0 :=
    countEv_sendPhase_eq_zero (Ev.callback (factory ip)) rfl _ _
  have hzf : countEv (Ev.factoryCall ip)
      (sendPhase (fun _ _ => false) pool) = 0 :=
    countEv_sendPhase_eq_zero (Ev.factoryCall ip) rfl _ _
  constructor <;>
    simp [runProbe, procBatch, procResponse, hs, h₁, h₂, hv, countEv_append,
      countEv_cons, countEv_nil, hz, hzf]

/-- Witness for C9 at concrete inputs. -/
theorem c9_factory_before_dedup_witness :
    hasMarker "ySonosy".toList = true ∧
    countEv (Ev.factoryCall "2.2.2.2")
      (runProbe (fun ip => Zone.mk ip true [] []) true ["A"] ⟨[], false⟩
        [⟨false, true, fun _ _ => false,
          .ready [⟨"2.2.2.2", "ySonosy".toList, false⟩,
                  ⟨"2.2.2.2", "ySonosy".toList, false⟩]⟩]).trace = 2 := by
  have hm : hasMarker "ySonosy".toList = true := by decide
  exact ⟨hm, (c9_factory_before_dedup (fun ip => Zone.mk ip true [] []) true ["A"]
    ⟨[], false⟩ "2.2.2.2" "ySonosy".toList "ySonosy".toList hm hm rfl (by simp)).1⟩

/-! Part: Lemmas for the socket pool -/

theorem buildPoolAuto_go (cf : String → Bool) :
    ∀ (A pool : List String), A.Nodup → (∀ a ∈ A, a ∉ pool) →
      A.foldl (fun pool a => if cf a then pool else dictInsert pool a) pool
        = pool ++ A.filter (fun a => !cf a) := by
  intro A
  induction A with
  | nil => intro pool _ _; simp
  | cons a as ih =>
      intro pool hnd hdis
      simp only [List.foldl_cons]
      by_cases hcf : cf a = true
      · rw [if_pos hcf,
          ih pool hnd.of_cons (fun x hx => hdis x (List.mem_cons_of_mem _ hx))]
        simp [List.filter_cons, hcf]
      · have hnm : a ∉ pool := hdis a (List.mem_cons_self _ _)
        have hne : a ∉ as := (List.nodup_cons.mp hnd).1
        rw [if_neg (by simpa using hcf), dictInsert, if_neg hnm,
          ih (pool ++ [a]) hnd.of_cons ?_]
        · simp [List.filter_cons, hcf]
        · intro x hx
          rw [List.mem_append, List.mem_singleton]
          rintro (hp | hxa)
          · exact hdis x (List.mem_cons_of_mem _ hx) hp
          · exact hne (hxa ▸ hx)

/-- On a duplicate-free address list the `_sockets` dict holds one socket
per address whose construction succeeded, in order. -/
theorem buildPoolAuto_nodup_eq (cf : String → Bool) (A : List String)
    (h : A.Nodup) : buildPoolAuto cf A = A.filter (fun a => !cf a) := by
  have := buildPoolAuto_go cf A [] h (by simp)
  simpa [buildPoolAuto] using this

/-- Claim C6: for a duplicate-free interface-address list of size N (N≥1)
the pool holds exactly the addresses whose socket construction succeeded
(exactly N when none fails); each resend cycle sends exactly 2 datagrams
per pooled socket, one to the multicast group 239.255.255.250:1900 and one
to the broadcast address on the same port; a send failure on one socket
does not affect the datagrams of any other socket (each socket's sends
depend only on its own failures); an explicitly requested valid interface
yields exactly one socket. -/
theorem c6_sockets_and_sends (A : List String) (hA : A.Nodup)
    (hN : 1 ≤ A.length) (cf : String → Bool) (sf : String → Nat → Bool)
    (a₀ ia : String) (hsf : ∀ a k, a ≠ a₀ → sf a k = false) :
    (buildPoolAuto cf A).length = (A.filter (fun a => !cf a)).length
    ∧ (buildPoolAuto (fun _ => false) A).length = A.length
    ∧ (∀ a, socketSends (fun _ _ => false) a =
        [Ev.sent a MCAST_GRP MCAST_PORT, Ev.sent a BCAST_ADDR MCAST_PORT])
    ∧ (∀ a, a ≠ a₀ → socketSends sf a =
        [Ev.sent a MCAST_GRP MCAST_PORT, Ev.sent a BCAST_ADDR MCAST_PORT])
    ∧ setupSockets (fun _ => true) (fun _ => false) [] (some ia)
        = (.ok [ia], [ia]) := by
  refine ⟨?_, ?_, ?_, ?_, rfl⟩
  · rw [buildPoolAuto_nodup_eq cf A hA]
  · rw [buildPoolAuto_nodup_eq _ A hA]; simp
  · intro a; simp [socketSends]
  · intro a ha; simp [socketSends, hsf a 0 ha, hsf a 1 ha]

/-- Witness for C6 at a concrete two-interface pool with one construction
failure and one send failure. -/
theorem c6_sockets_and_sends_witness :
    (["192.168.1.15", "192.168.1.16"] : List String).Nodup ∧
    (buildPoolAuto (fun a => a == "192.168.1.16")
        ["192.168.1.15", "192.168.1.16"]).length
      = ((["192.168.1.15", "192.168.1.16"] : List String).filter
          (fun a => !(a == "192.168.1.16"))).length := by
  have hA : (["192.168.1.15", "192.168.1.16"] : List String).Nodup := by decide
  refine ⟨hA, ?_⟩
  exact (c6_sockets_and_sends _ hA (by decide) _
    (fun a _ => a == "192.168.1.15") "192.168.1.15" "10.0.0.1"
    (fun a k h => beq_eq_false_iff_ne.mpr h)).1

/-! Part: Lemmas for the adaptive timeout of `discover` -/

/-- Once `first_response` is recorded, the next loop iteration joins until
exactly one second past the first-response timestamp and requests stop. -/
theorem discoverLoop_drain (timeout start : ℚ) (respTime : Option ℚ)
    (n : Nat) (now fr : ℚ) (h : now < fr + 1) :
    discoverLoop timeout start respTime (n + 2) ⟨now, some fr, none⟩
      = ⟨fr + 1, some fr, some (fr + 1)⟩ := by
  have hd : max (fr + 1 - now) 0 = fr + 1 - now := max_eq_left (by linarith)
  have h1 : joinStep respTime ⟨now, some fr, none⟩ (fr + 1 - now)
      = ⟨fr + 1, some fr, none⟩ := by
    have hx : now + (fr + 1 - now) = fr + 1 := by ring
    simp [joinStep, hd, hx]
  show discoverLoop timeout start respTime (n + 1 + 1) ⟨now, some fr, none⟩ = _
  simp only [discoverLoop, h1, requestStop]
  cases n <;> simp [discoverLoop]

/-- With no response in sight, the loop polls at 1-second steps from
`start + j` and requests stop at the first poll instant strictly past
`start + timeout`, namely `start + timeout + 1`. -/
theorem discoverLoop_no_response (T : ℕ) (start : ℚ) :
    ∀ (n j : ℕ), j ≤ T → T - j + 2 ≤ n →
    discoverLoop (T : ℚ) start none n ⟨start + (j : ℚ), none, none⟩
      = ⟨start + (T : ℚ) + 1, none, some (start + (T : ℚ) + 1)⟩ := by
  intro n
  induction n with
  | zero => intro j hj hn; omega
  | succ m ih =>
      intro j hj hn
      have hmx : max (1 : ℚ) 0 = 1 := by norm_num
      have h1 : joinStep none ⟨start + (j : ℚ), none, none⟩ 1
          = ⟨start + (j : ℚ) + 1, none, none⟩ := by
        simp [joinStep, hmx]
      rcases eq_or_lt_of_le hj with heq | hlt
      · subst heq
        have hc : start + (j : ℚ) < start + (j : ℚ) + 1 := by linarith
        simp only [discoverLoop, h1]
        rw [if_pos hc]
        simp only [requestStop]
        cases m <;> simp [discoverLoop]
      · have hc : ¬(start + (T : ℚ) < start + (j : ℚ) + 1) := by
          have hj1 : (j : ℚ) + 1 ≤ (T : ℚ) := by exact_mod_cast hlt
          linarith
        simp only [discoverLoop, h1]
        rw [if_neg hc]
        have hcast : start + (j : ℚ) + 1 = start + ((j + 1 : ℕ) : ℚ) := by
          push_cast; ring
        rw [hcast]
        exact ih (j + 1) hlt (by omega)

/-- If the first response arrives at `tr`, with `start < tr ≤ start +
timeout`, then the loop records `first_response = tr` at the poll covering
`tr` and requests stop at exactly `tr + 1`. -/
theorem discoverLoop_first_response (T : ℕ) (start tr : ℚ)
    (htr2 : tr ≤ start + (T : ℚ)) :
    ∀ (n j : ℕ), start + (j : ℚ) < tr → T - j + 2 ≤ n →
    discoverLoop (T : ℚ) start (some tr) n ⟨start + (j : ℚ), none, none⟩
      = ⟨tr + 1, some tr, some (tr + 1)⟩ := by
  intro n
  induction n with
  | zero => intro j hjt hn; omega
  | succ m ih =>
      intro j hjt hn
      have hjT : j < T := by
        have hq : (j : ℚ) < (T : ℚ) := by linarith
        exact_mod_cast hq
      have hc : ¬(start + (T : ℚ) < start + (j : ℚ) + 1) := by
        have hj1 : (j : ℚ) + 1 ≤ (T : ℚ) := by
          have : ((j + 1 : ℕ) : ℚ) ≤ (T : ℚ) := by exact_mod_cast hjT
          push_cast at this; linarith
        linarith
      have hmx : max (1 : ℚ) 0 = 1 := by norm_num
      by_cases hcap : tr ≤ start + (j : ℚ) + 1
      · have h1 : joinStep (some tr) ⟨start + (j : ℚ), none, none⟩ 1
            = ⟨start + (j : ℚ) + 1, some tr, none⟩ := by
          simp [joinStep, hmx, hjt, hcap]
        simp only [discoverLoop, h1]
        rw [if_neg hc]
        obtain ⟨m', rfl⟩ : ∃ m', m = m' + 2 := ⟨m - 2, by omega⟩
        exact discoverLoop_drain (T : ℚ) start (some tr) m' _ tr (by linarith)
      · have hnc : ¬(tr ≤ start + (j : ℚ) + 1) := hcap
        have h1 : joinStep (some tr) ⟨start + (j : ℚ), none, none⟩ 1
            = ⟨start + (j : ℚ) + 1, none, none⟩ := by
          simp [joinStep, hmx, hnc]
        simp only [discoverLoop, h1]
        rw [if_neg hc]
        have hcast : start + (j : ℚ) + 1 = start + ((j + 1 : ℕ) : ℚ) := by
          push_cast; ring
        push_neg at hnc
        rw [hcast]
        exact ih (j + 1) (by push_cast; linarith) (by omega)

/-- Claim C8: while no response has been observed, `discover` polls the
worker at 1-second granularity and requests stop at the first poll instant
strictly after `start + timeout` (that is, at `start + timeout + 1`); once
the first response has been observed at time `tr` (with `start < tr ≤
start + timeout`), it waits until exactly one second after the
first-response timestamp and requests stop at `tr + 1`, not at the full
original timeout. -/
theorem c8_adaptive_timeout (T : ℕ) (start : ℚ) (n : ℕ)
    (hT : 1 ≤ T) (hn : T + 2 ≤ n) :
    (discoverLoop (T : ℚ) start none n ⟨start, none, none⟩).stopAt
        = some (start + (T : ℚ) + 1)
    ∧ ∀ tr : ℚ, start < tr → tr ≤ start + (T : ℚ) →
        (discoverLoop (T : ℚ) start (some tr) n ⟨start, none, none⟩).stopAt
            = some (tr + 1)
        ∧ (discoverLoop (T : ℚ) start (some tr) n
            ⟨start, none, none⟩).firstResponse = some tr := by
  have h0 : start = start + ((0 : ℕ) : ℚ) := by norm_num
  constructor
  · rw [show (⟨start, none, none⟩ : DiscState)
        = ⟨start + ((0 : ℕ) : ℚ), none, none⟩ from by rw [← h0],
      discoverLoop_no_response T start n 0 (by omega) (by omega)]
  · intro tr h1 h2
    rw [show (⟨start, none, none⟩ : DiscState)
        = ⟨start + ((0 : ℕ) : ℚ), none, none⟩ from by rw [← h0],
      discoverLoop_first_response T start tr h2 n 0 (by push_cast; linarith)
        (by omega)]
    exact ⟨rfl, rfl⟩

/-- Witness for C8: timeout 2 s, no response vs. a first response at 0.5 s
(stop requested at 1.5 s, not at the full timeout). -/
theorem c8_adaptive_timeout_witness :
    (discoverLoop ((2 : ℕ) : ℚ) 0 none 10 ⟨0, none, none⟩).stopAt
        = some (0 + ((2 : ℕ) : ℚ) + 1)
    ∧ (discoverLoop ((2 : ℕ) : ℚ) 0 (some (1 / 2)) 10 ⟨0, none, none⟩).stopAt
        = some (1 / 2 + 1) := by
  refine ⟨(c8_adaptive_timeout 2 0 10 (by norm_num) (by norm_num)).1, ?_⟩
  exact ((c8_adaptive_timeout 2 0 10 (by norm_num) (by norm_num)).2 (1 / 2)
    (by norm_num) (by push_cast; norm_num)).1

/-- Witness for C5 at concrete payloads. -/
theorem c5_marker_validation_witness :
    hasMarker "xyz".toList = false ∧
    Ev.factoryCall "192.168.1.9" ∈
      (procResponse (fun ip => ⟨ip, true, [], []⟩) false ⟨[], false⟩
        ⟨"192.168.1.9", "ab".toList ++ sonosMarker ++ "cd".toList, false⟩).2 := by
  have hn : hasMarker "xyz".toList = false := by decide
  exact ⟨hn, (c5_marker_validation (fun ip => ⟨ip, true, [], []⟩) false
    ⟨[], false⟩ "192.168.1.9" "ab".toList "cd".toList "xyz".toList hn).1⟩

end Pysonos
